import Mathlib

/-!
# Verification of the trade-bot classification-and-state pipeline

Shallow embedding of the core of the repository:

* `Manager`  : `src/manager/trade_manager.py` — the trade state machine
  (`update_trade`, `close_trade`, history appends).
* `Processor`: `src/processor/processor.py` — `parse_expiration_date`,
  `fetch_reply_chain`, `load_todays_trades`, `load_recent_history`,
  `store_analysis`, `process_message`.

Modelling conventions:

* SQL / MongoDB tables are Lean lists of structures; `fetchone` / `find_one`
  is `List.find?` (first match), `UPDATE ... WHERE` is a `List.map` guarded
  by the row predicate, `INSERT` is a list append, and the Mongo upsert of
  `store_analysis` replaces the matching row or appends a fresh one.
* `CURRENT_TIMESTAMP` / `datetime.now()` is an explicit `now : Nat`
  parameter; ISO-8601 timestamps compare chronologically exactly as their
  strings compare lexicographically, so timestamps are modelled as `Nat`.
* Python numeric payload values (stop loss, take profit, prices) are
  modelled as `Int`; the claims under check only compare them for equality.
  The float product `current_quantity * (percent / 100)` fed to `int(...)`
  is modelled exactly as truncated rational arithmetic (`Int.tdiv` of the
  integer product by 100); `int()` truncates toward zero.
* A Python code path on which an uncaught-in-function exception aborts the
  operation is an `Except`/branch returning the untouched state; inside
  `update_trade` every such exception fires before the first database
  write, so the handler of the method leaves the state unchanged.
* The two recursive traversals of `fetch_reply_chain` are written with
  explicit fuel `messages.length + 1`; the Python loop terminates because
  every iteration either stops or moves to a message id that was freshly
  added to the visited set, so that fuel is never exhausted on the inputs
  considered here, where the fuel bound is checked concretely.
-/

namespace TradeBot

/-! ## Python string primitives -/

/-- Python substring test `needle in hay`, over character lists. -/
def containsChars (needle : List Char) : List Char → Bool
  | [] => needle.isEmpty
  | c :: rest => needle.isPrefixOf (c :: rest) || containsChars needle rest

/-- Python `needle in hay` on strings. -/
def strContains (hay needle : String) : Bool :=
  containsChars needle.data hay.data

/-- Python `str.lower()` (the identifiers classified here are ASCII). -/
def lowerStr (s : String) : String :=
  ⟨s.data.map (fun c => c.toLower)⟩

/-- Python `str.strip()`: drop whitespace from both ends. -/
def trimStr (s : String) : String :=
  ⟨((s.data.dropWhile (fun c => c.isWhitespace)).reverse.dropWhile
      (fun c => c.isWhitespace)).reverse⟩

/-- Worker for `splitWs`: the accumulator holds the current token in
reverse. -/
def splitWsAux : List Char → List Char → List String
  | acc, [] => if acc.isEmpty then [] else [⟨acc.reverse⟩]
  | acc, c :: rest =>
      if c.isWhitespace then
        if acc.isEmpty then splitWsAux [] rest
        else ⟨acc.reverse⟩ :: splitWsAux [] rest
      else splitWsAux (c :: acc) rest

/-- Python `str.split()` with no argument: split on whitespace runs,
dropping empty pieces. -/
def splitWs (s : String) : List String :=
  splitWsAux [] s.data

/-- Python `s.split(sep)[0]` for a one-character separator: the prefix
of `s` before the first occurrence of `sep`. -/
def beforeFirst (s : String) (sep : Char) : String :=
  ⟨s.data.takeWhile (fun c => c != sep)⟩

/-- Python `int(tok)` on a string: optional surrounding whitespace,
optional sign, then a nonempty digit run; `none` models `ValueError`. -/
def pyInt (s : String) : Option Int :=
  let t := trimStr s
  match t.data with
  | '-' :: ds =>
      if ds ≠ [] ∧ ds.all (fun c => c.isDigit) then
        some (-(Int.ofNat (ds.foldl (fun n c => 10 * n + (c.toNat - 48)) 0)))
      else none
  | '+' :: ds =>
      if ds ≠ [] ∧ ds.all (fun c => c.isDigit) then
        some (Int.ofNat (ds.foldl (fun n c => 10 * n + (c.toNat - 48)) 0))
      else none
  | ds =>
      if ds ≠ [] ∧ ds.all (fun c => c.isDigit) then
        some (Int.ofNat (ds.foldl (fun n c => 10 * n + (c.toNat - 48)) 0))
      else none

/-- Generic insertion sort on a boolean comparator, standing in for the
database-side sorts (`.sort(field, dir)` in Mongo, Python `list.sort`). -/
def insertBy {α : Type} (le : α → α → Bool) (x : α) : List α → List α
  | [] => [x]
  | y :: ys => if le x y then x :: y :: ys else y :: insertBy le x ys

/-- Sort a list by a boolean comparator. -/
def sortBy {α : Type} (le : α → α → Bool) : List α → List α
  | [] => []
  | x :: xs => insertBy le x (sortBy le xs)

end TradeBot

namespace TradeBot.Manager

/-! ## `src/manager/trade_manager.py` — data model

One row of the `trades` table, restricted to the columns that
`update_trade` / `close_trade` read or write. -/
structure Trade where
  trade_id : Int
  status : String
  quantity : Int
  stop_loss : Option Int
  take_profit : Option Int
  updated_at : Option Nat
  closed_at : Option Nat
  deriving Repr, DecidableEq

/-- The `analysis_payload` fields consumed by the trade handlers. -/
structure UPayload where
  stop_loss : Option Int := none
  take_profit : Option Int := none
  details : Option String := none
  deriving Repr, DecidableEq

/-- The `action_context` dict built by `process_action`. -/
structure ActionCtx where
  analysis_id : Option Int := none
  reason : Option String := none
  confidence : Option Int := none
  related_trade_id : Option Int := none
  payload : UPayload := {}
  deriving Repr, DecidableEq

/-- The JSON `details` column of one `trade_history` row, as the three
shapes the handlers serialize. -/
inductive HistDetails where
  | createD (reason : Option String) (confidence : Option Int) (payload : UPayload)
  | updateD (reason : Option String) (confidence : Option Int)
      (sl : Option (Option Int × Int)) (tp : Option (Option Int × Int))
      (qty : Option (Int × Int × Option Int)) (details : Option String)
  | closeD (reason : Option String) (confidence : Option Int) (payload : UPayload)
  deriving Repr, DecidableEq

/-- One row of the append-only `trade_history` table. -/
structure HistEvent where
  trade_id : Int
  triggering_analysis_id : Option Int
  event_type : String
  details : HistDetails
  deriving Repr, DecidableEq

/-- The persistent state touched by the trade manager. -/
structure DB where
  trades : List Trade
  history : List HistEvent
  deriving Repr, DecidableEq

/-- Python truthiness test `not trade_id` on the optional integer id:
true on `None` and on `0`. -/
def falsyId : Option Int → Bool
  | none => true
  | some v => v == 0

/-- The quantity-change parser inlined in `update_trade` (lines 160-186).
`error` is an exception that escapes to the outer handler of the method
(`IndexError` from `[-1]` on an empty split, or `ValueError` from `int()`
inside the percentage branch, which the inner `try` does not cover);
`ok none` means neither the trim nor the add branch fired, and
`ok (some qc)` means one fired and computed the signed change `qc`. -/
def computeQuantityChange (details : String) (current : Int) :
    Except Unit (Option Int) :=
  if strContains details "trim" || strContains details "scale out" then
    if strContains details "%" then
      match (splitWs (beforeFirst details (Char.ofNat 37))).getLast? with
      | none => .error ()
      | some tok =>
          match pyInt tok with
          | none => .error ()
          | some p => .ok (some (-(Int.tdiv (current * p) 100)))
    else
      match (splitWs details).getLast? with
      | none => .error ()
      | some tok =>
          match pyInt tok with
          | none => .ok (some (-1))
          | some n => .ok (some (-n))
  else if strContains details "add" || strContains details "scale in" then
    if strContains details "%" then
      match (splitWs (beforeFirst details (Char.ofNat 37))).getLast? with
      | none => .error ()
      | some tok =>
          match pyInt tok with
          | none => .error ()
          | some p => .ok (some (Int.tdiv (current * p) 100))
    else
      match (splitWs details).getLast? with
      | none => .error ()
      | some tok =>
          match pyInt tok with
          | none => .ok (some 1)
          | some n => .ok (some n)
  else .ok none

/-- The row effect of the closing `UPDATE ... WHERE trade_id = ? AND
status != 'closed'` (lines 229-234). -/
def closeRow (now : Nat) (tid : Int) (t : Trade) : Trade :=
  if t.trade_id == tid && t.status != "closed" then
    { t with status := "closed", quantity := 0,
             closed_at := some now, updated_at := some now }
  else t

/-- `TradeManager.close_trade` (lines 219-244): guard on a falsy
`related_trade_id`; update every not-yet-closed row with that id to
closed / quantity 0 / fresh `closed_at`; then append a `close` history
event unconditionally. -/
def close_trade (now : Nat) (ctx : ActionCtx) (db : DB) : DB :=
  if falsyId ctx.related_trade_id then db
  else
    let tid := ctx.related_trade_id.getD 0
    { trades := db.trades.map (closeRow now tid),
      history :=
        db.history ++
          [⟨tid, ctx.analysis_id, "close",
            .closeD ctx.reason ctx.confidence ctx.payload⟩] }

/-- Whether `update_trade` registers a field-level change: the payload
value is present and differs from the current column value. -/
def fieldChanged (newv old : Option Int) : Bool :=
  newv.isSome && newv != old

/-- The row effect of the `UPDATE trades SET ...` built from the change
set (lines 199-204): write the changed fields and refresh
`updated_at`. -/
def updateRow (now : Nat) (tid : Int) (p : UPayload)
    (slChanged tpChanged : Bool) (qce newQty : Int) (t : Trade) : Trade :=
  if t.trade_id == tid then
    { t with
        stop_loss := if slChanged then p.stop_loss else t.stop_loss,
        take_profit := if tpChanged then p.take_profit else t.take_profit,
        quantity := if qce != 0 then newQty else t.quantity,
        updated_at := some now }
  else t

/-- `TradeManager.update_trade` (lines 128-217). Mirrors the source
step by step: falsy-id guard, `fetchone` on the trade, field diffs for
`stop_loss` / `take_profit`, the free-text quantity parser, the guarded
`UPDATE`, the re-fetch with the quantity-zero close trigger, and the
final `update` history append. An exception from the parser reaches the
outer handler before any write, leaving the database unchanged. -/
def update_trade (now : Nat) (ctx : ActionCtx) (db : DB) : DB :=
  if falsyId ctx.related_trade_id then db
  else
    let tid := ctx.related_trade_id.getD 0
    match db.trades.find? (fun t => t.trade_id == tid) with
    | none => db
    | some trade =>
        let slChanged := fieldChanged ctx.payload.stop_loss trade.stop_loss
        let tpChanged := fieldChanged ctx.payload.take_profit trade.take_profit
        let details := lowerStr (ctx.payload.details.getD "")
        match computeQuantityChange details trade.quantity with
        | .error _ => db
        | .ok qcOpt =>
            let qce := qcOpt.getD 0
            let hasUpdates := slChanged || tpChanged || (qce != 0)
            if hasUpdates || details ≠ "" then
              let newQty := max 0 (trade.quantity + qce)
              let db1 :=
                if hasUpdates then
                  { db with trades := db.trades.map (updateRow now tid ctx.payload slChanged tpChanged qce newQty) }
                else db
              match db1.trades.find? (fun t => t.trade_id == tid) with
              | none => db1
              | some ut =>
                  let db2 :=
                    if ut.quantity ≤ 0 then
                      close_trade now
                        { analysis_id := ctx.analysis_id,
                          reason := some "Quantity reached zero after update",
                          confidence := none,
                          related_trade_id := some tid,
                          payload := {} } db1
                    else db1
                  { db2 with history :=
                      db2.history ++
                        [⟨tid, ctx.analysis_id, "update",
                          .updateD ctx.reason ctx.confidence
                            (if slChanged then
                              some (trade.stop_loss, ctx.payload.stop_loss.getD 0)
                             else none)
                            (if tpChanged then
                              some (trade.take_profit, ctx.payload.take_profit.getD 0)
                             else none)
                            (qcOpt.map (fun qc =>
                              (trade.quantity, qc,
                               if qc != 0 then some newQty else none)))
                            (if details ≠ "" then some details else none)⟩] }
            else db

end TradeBot.Manager

namespace TradeBot.Processor

/-! ## `src/processor/processor.py` — dates

Proleptic-Gregorian calendar arithmetic, the algorithms behind Python's
`datetime.date` ordinal conversions (days counted from 1970-01-01).
`Int.fdiv` is floor division, which is what the usual era adjustment of
the civil-calendar algorithms computes. -/

structure PyDate where
  year : Int
  month : Int
  day : Int
  deriving Repr, DecidableEq

/-- Days since 1970-01-01 of a civil date. -/
def daysFromCivil (y m d : Int) : Int :=
  let y' := if m ≤ 2 then y - 1 else y
  let era := y'.fdiv 400
  let yoe := y' - era * 400
  let mp := if 2 < m then m - 3 else m + 9
  let doy := (153 * mp + 2).fdiv 5 + d - 1
  let doe := yoe * 365 + yoe.fdiv 4 - yoe.fdiv 100 + doy
  era * 146097 + doe - 719468

/-- Civil date of a day count since 1970-01-01. -/
def civilFromDays (z0 : Int) : PyDate :=
  let z := z0 + 719468
  let era := z.fdiv 146097
  let doe := z - era * 146097
  let yoe := (doe - doe.fdiv 1460 + doe.fdiv 36524 - doe.fdiv 146097).fdiv 365
  let y := yoe + era * 400
  let doy := doe - (365 * yoe + yoe.fdiv 4 - yoe.fdiv 100)
  let mp := (5 * doy + 2).fdiv 153
  let d := doy - (153 * mp + 2).fdiv 5 + 1
  let m := if mp < 10 then mp + 3 else mp - 9
  ⟨if m ≤ 2 then y + 1 else y, m, d⟩

/-- Day count of a `PyDate`. -/
def toRD (d : PyDate) : Int := daysFromCivil d.year d.month d.day

/-- `date.weekday()`: Monday = 0 .. Sunday = 6 (1970-01-01 was a Thursday). -/
def pyWeekday (d : PyDate) : Int := (toRD d + 3).emod 7

def isLeap (y : Int) : Bool :=
  y.emod 4 == 0 && (y.emod 100 != 0 || y.emod 400 == 0)

def daysInMonth (y m : Int) : Int :=
  if m == 2 then (if isLeap y then 29 else 28)
  else if m == 4 || m == 6 || m == 9 || m == 11 then 30
  else 31

/-- The dates representable by `datetime.date` (year 1 to 9999, valid
month and day). -/
def validDate (d : PyDate) : Bool :=
  1 ≤ d.year && d.year ≤ 9999 && 1 ≤ d.month && d.month ≤ 12 &&
    1 ≤ d.day && d.day ≤ daysInMonth d.year d.month

/-- Day count of `date.min` = 0001-01-01. -/
def minRD : Int := daysFromCivil 1 1 1

/-- Day count of `date.max` = 9999-12-31. -/
def maxRD : Int := daysFromCivil 9999 12 31

/-- `date + timedelta(days = n)`: `none` models the `OverflowError`
raised when the result leaves the representable range. -/
def pyAddDays (d : PyDate) (n : Int) : Option PyDate :=
  let z := toRD d + n
  if minRD ≤ z ∧ z ≤ maxRD then some (civilFromDays z) else none

/-- One decimal digit character. -/
def digitChar (n : Nat) : Char := Char.ofNat (48 + n % 10)

/-- Four zero-padded decimal digits (`%04d`, enough for years 1-9999). -/
def pad4 (n : Nat) : List Char :=
  [digitChar (n / 1000), digitChar (n / 100), digitChar (n / 10), digitChar n]

/-- Two zero-padded decimal digits (`%02d`). -/
def pad2 (n : Nat) : List Char :=
  [digitChar (n / 10), digitChar n]

/-- `date.isoformat()` / `strftime(%Y-%m-%d)` on representable dates:
zero-padded `YYYY-MM-DD` (the format documented for the `%Y`, `%m`, `%d`
codes; years below 1000 can only come from already-4-digit inputs). -/
def pyIso (d : PyDate) : String :=
  ⟨pad4 d.year.toNat ++ '-' :: (pad2 d.month.toNat ++ '-' :: pad2 d.day.toNat)⟩

/-! ### `datetime.strptime`, for the four formats the code tries

Python compiles each format directive to a regex; the directives used
here are `%Y` (exactly four digits), `%y` (exactly two digits, 00-68
mapped to 20xx and 69-99 to 19xx), `%m` (`1[0-2]|0[1-9]|[1-9]`), `%d`
(`3[01]|[12]\d|0[1-9]|[1-9]`), `%b` (a three-letter month name,
case-insensitive — the input is already lowercased), and a literal
space, which matches a nonempty whitespace run. The whole string must
be consumed (`unconverted data remains` otherwise), and the matched
numbers must form a representable date. -/

/-- Exactly `n` decimal digits. -/
def parseDigitsAcc (acc : Nat) : Nat → List Char → Option (Nat × List Char)
  | 0, cs => some (acc, cs)
  | _ + 1, [] => none
  | n + 1, c :: cs =>
      if c.isDigit then parseDigitsAcc (10 * acc + (c.toNat - 48)) n cs
      else none

def parseNDigits (n : Nat) (cs : List Char) : Option (Nat × List Char) :=
  parseDigitsAcc 0 n cs

/-- The `%m` regex `1[0-2]|0[1-9]|[1-9]`, alternatives in order. -/
def parseMonthTok : List Char → Option (Nat × List Char)
  | '1' :: c :: rest =>
      if '0' ≤ c ∧ c ≤ '2' then some (10 + (c.toNat - 48), rest)
      else some (1, c :: rest)
  | '0' :: c :: rest =>
      if '1' ≤ c ∧ c ≤ '9' then some (c.toNat - 48, rest) else none
  | c :: rest =>
      if '1' ≤ c ∧ c ≤ '9' then some (c.toNat - 48, rest) else none
  | [] => none

/-- The `%d` regex `3[01]|[12]\d|0[1-9]|[1-9]`, alternatives in order. -/
def parseDayTok : List Char → Option (Nat × List Char)
  | '3' :: c :: rest =>
      if c = '0' ∨ c = '1' then some (30 + (c.toNat - 48), rest)
      else some (3, c :: rest)
  | c1 :: c2 :: rest =>
      if (c1 = '1' ∨ c1 = '2') ∧ c2.isDigit then
        some ((c1.toNat - 48) * 10 + (c2.toNat - 48), rest)
      else if c1 = '0' ∧ ('1' ≤ c2 ∧ c2 ≤ '9') then some (c2.toNat - 48, rest)
      else if '1' ≤ c1 ∧ c1 ≤ '9' then some (c1.toNat - 48, c2 :: rest)
      else none
  | [c] => if '1' ≤ c ∧ c ≤ '9' then some (c.toNat - 48, []) else none
  | [] => none

/-- One three-letter month abbreviation (input already lowercased). -/
def parseMonAbbr (cs : List Char) : Option (Nat × List Char) :=
  let names := ["jan", "feb", "mar", "apr", "may", "jun",
                "jul", "aug", "sep", "oct", "nov", "dec"]
  (List.enumFrom 1 names).firstM (fun (num, name) =>
    if name.data.isPrefixOf cs then some ((num : Nat), cs.drop 3) else none)

/-- A nonempty whitespace run (a literal blank in a strptime format). -/
def parseWsRun : List Char → Option (List Char)
  | c :: rest =>
      if c.isWhitespace then some (rest.dropWhile (fun x => x.isWhitespace))
      else none
  | [] => none

/-- The representability check done when `strptime` builds the
`datetime` from the matched groups. -/
def checkDate (y m d : Nat) : Option PyDate :=
  if validDate ⟨(y : Int), (m : Int), (d : Int)⟩ then
    some ⟨(y : Int), (m : Int), (d : Int)⟩
  else none

/-- `datetime.strptime(s, "%Y-%m-%d")`. -/
def strptimeYmd (s : String) : Option PyDate :=
  match parseNDigits 4 s.data with
  | some (y, '-' :: r1) =>
      match parseMonthTok r1 with
      | some (m, '-' :: r2) =>
          match parseDayTok r2 with
          | some (d, []) => checkDate y m d
          | _ => none
      | _ => none
  | _ => none

/-- `datetime.strptime(s, "%m/%d/%Y")`. -/
def strptimeMdY (s : String) : Option PyDate :=
  match parseMonthTok s.data with
  | some (m, '/' :: r1) =>
      match parseDayTok r1 with
      | some (d, '/' :: r2) =>
          match parseNDigits 4 r2 with
          | some (y, []) => checkDate y m d
          | _ => none
      | _ => none
  | _ => none

/-- `datetime.strptime(s, "%m/%d/%y")`: the two-digit year is mapped to
2000-2068 / 1969-1999. -/
def strptimeMdy (s : String) : Option PyDate :=
  match parseMonthTok s.data with
  | some (m, '/' :: r1) =>
      match parseDayTok r1 with
      | some (d, '/' :: r2) =>
          match parseNDigits 2 r2 with
          | some (y2, []) =>
              checkDate (if y2 ≤ 68 then 2000 + y2 else 1900 + y2) m d
          | _ => none
      | _ => none
  | _ => none

/-- `datetime.strptime(s, "%b %d, %Y")`. -/
def strptimeBdY (s : String) : Option PyDate :=
  match parseMonAbbr s.data with
  | some (m, r1) =>
      match parseWsRun r1 with
      | some r2 =>
          match parseDayTok r2 with
          | some (d, ',' :: r3) =>
              match parseWsRun r3 with
              | some r4 =>
                  match parseNDigits 4 r4 with
                  | some (y, []) => checkDate y m d
                  | _ => none
              | none => none
          | _ => none
      | none => none
  | none => none

/-- `parse_expiration_date` (processor.py lines 30-55). The input is
`none` for a non-string value. The result is `none` exactly when an
uncaught exception escapes (only the `OverflowError` of a `timedelta`
addition past `date.max`); every caught parse failure falls through to
the current date, as in the source. -/
def parse_expiration_date (today : PyDate) (input : Option String) :
    Option String :=
  match input with
  | none => some (pyIso today)
  | some s =>
      let ds := lowerStr s
      if strContains ds "this week" || strContains ds "end of week" then
        (pyAddDays today ((4 - pyWeekday today + 7).emod 7)).map pyIso
      else if strContains ds "0dte" || strContains ds "today" then
        some (pyIso today)
      else if strContains ds "tomorrow" then
        (pyAddDays today 1).map pyIso
      else
        match strptimeYmd ds <|> strptimeMdY ds <|> strptimeMdy ds <|> strptimeBdY ds with
        | some d => some (pyIso d)
        | none => some (pyIso today)

/-! ## `src/processor/processor.py` — pipeline state -/

/-- One document of the `raw_messages` collection. -/
structure Msg where
  message_id : Int
  content : String
  channel_name : String
  timestamp : Nat
  parent_id : Option Int := none
  processed : Bool := false
  deriving Repr, DecidableEq

/-- One document of the Mongo `trades` collection read by the
processor. -/
structure MTrade where
  trade_id : Int
  symbol : String
  option_type : String
  strike : Int
  expiration : String
  status : String
  quantity : Int
  created_at : Nat
  deriving Repr, DecidableEq

/-- The projection used by `load_todays_trades` (`trade_id, symbol,
option_type, strike, expiration, status, quantity`). -/
structure TradeSnap where
  trade_id : Int
  symbol : String
  option_type : String
  strike : Int
  expiration : String
  status : String
  quantity : Int
  deriving Repr, DecidableEq

def projSnap (t : MTrade) : TradeSnap :=
  ⟨t.trade_id, t.symbol, t.option_type, t.strike, t.expiration, t.status,
   t.quantity⟩

/-- Token-usage statistics returned with a classifier response. -/
structure UsageD where
  prompt_tokens : Nat := 0
  completion_tokens : Nat := 0
  total_tokens : Nat := 0
  deriving Repr, DecidableEq

/-- The structured classifier result dict (the keys the pipeline reads,
plus the `usage` / `raw_response` keys that `store_analysis` adds to the
same dict before persisting it). -/
structure AnalysisDict where
  action_type : String
  related_trade_id : Option Int := none
  reason : Option String := none
  confidence_score : Option Int := none
  expiration_date : Option String := none
  details : Option String := none
  usage : Option UsageD := none
  raw_response : Option String := none
  deriving Repr, DecidableEq

/-- One document of the `analyzed_actions` collection (the
AnalysisCache), as assembled by `store_analysis`. -/
structure AnalysisRow where
  message_id : Int
  action_type : String
  related_trade_id : Option Int
  reason : Option String
  confidence_score : Option Int
  analysis_payload : AnalysisDict
  analysis_timestamp : Nat
  deriving Repr, DecidableEq

/-- The persistent and observable state of the processor loop: the three
Mongo collections, the outgoing trade-action queue, and a counter of
external classifier invocations (`GrokAnalyzer.analyze_message` calls). -/
structure PState where
  messages : List Msg
  analyses : List AnalysisRow
  trades : List MTrade
  actionQueue : List (Int × AnalysisDict) := []
  calls : Nat := 0
  deriving Repr, DecidableEq

/-- The external classifier, a black box from the prompt inputs
(message content, recent history, reply chain, trade snapshot) to
(structured result, usage, raw response). -/
def Analyzer : Type :=
  String → List String → String → List TradeSnap →
    AnalysisDict × UsageD × Option String

/-! ### `fetch_reply_chain` (lines 152-203) -/

/-- `max_reply_depth`, set in `MessageProcessor.__init__` (line 145). -/
def max_reply_depth : Nat := 10

/-- The upward walk of `fetch_reply_chain` (lines 157-166): follow
parent links, stopping on a falsy id (`None` or `0`), a repeated id, or
a missing message; collects `parent_chain_ids` in visit order. Fuel is
`messages.length + 1`, which the loop never exhausts: every iteration
that recurses has appended a fresh found message id to the visited set. -/
def parentWalk (msgs : List Msg) :
    Nat → Option Int → List Int → List Int → List Int
  | 0, _, _, acc => acc
  | fuel + 1, cur, visited, acc =>
      match cur with
      | none => acc
      | some c =>
          if c == 0 then acc
          else if c ∈ visited then acc
          else
            let acc' := acc ++ [c]
            match msgs.find? (fun m => m.message_id == c) with
            | none => acc'
            | some m => parentWalk msgs fuel m.parent_id (c :: visited) acc'

/-- `parent_chain_ids` computed for a message id. -/
def parentChainIds (msgs : List Msg) (mid : Int) : List Int :=
  parentWalk msgs (msgs.length + 1) (some mid) [] []

/-- An entry of the `chain` list built by the downward traversal. -/
structure ChainItem where
  content : String
  timestamp : Nat
  level : Nat
  deriving Repr, DecidableEq

/-- The recursive `add_message` closure (lines 177-192): depth-first
over replies sorted by timestamp, guarded by a visited set. -/
def addMessage (msgs : List Msg) :
    Nat → Int → Nat → List Int × List ChainItem → List Int × List ChainItem
  | 0, _, _, st => st
  | fuel + 1, msgId, level, (visited, chain) =>
      if msgId ∈ visited then (visited, chain)
      else
        let visited' := msgId :: visited
        match msgs.find? (fun m => m.message_id == msgId) with
        | none => (visited', chain)
        | some m =>
            let chain' := chain ++ [⟨m.content, m.timestamp, level⟩]
            let replies :=
              sortBy (fun a b => Nat.ble a.timestamp b.timestamp)
                (msgs.filter (fun r => r.parent_id == some msgId))
            replies.foldl
              (fun st r => addMessage msgs fuel r.message_id (level + 1) st)
              (visited', chain')

/-- `MessageProcessor.fetch_reply_chain`: root discovery, downward
thread collection, chronological sort, and indentation by level. -/
def fetch_reply_chain (msgs : List Msg) (mid : Int) : String :=
  let pchain := parentChainIds msgs mid
  if pchain.isEmpty then ""
  else
    let root := pchain.getLastD 0
    let (_, chain) := addMessage msgs (msgs.length + 1) root 0 ([], [])
    let sorted := sortBy (fun a b => Nat.ble a.timestamp b.timestamp) chain
    String.intercalate "\n"
      (sorted.map (fun it =>
        String.mk (List.replicate (2 * it.level) ' ') ++ it.content))

/-! ### the remaining processor operations -/

/-- `load_todays_trades` (lines 205-212): every trade created at or
after the start of the current day — with no status filter — sorted
newest-first and projected. -/
def load_todays_trades (todayStart : Nat) (trades : List MTrade) :
    List TradeSnap :=
  (sortBy (fun a b => Nat.ble b.created_at a.created_at)
    (trades.filter (fun t => Nat.ble todayStart t.created_at))).map projSnap

/-- `load_recent_history` (lines 214-219): the `limit` most recent
messages of the channel strictly before the timestamp, returned oldest
to newest as content strings. -/
def load_recent_history (msgs : List Msg) (channel : String) (ts : Nat)
    (limit : Nat) : List String :=
  let rows :=
    (sortBy (fun a b => Nat.ble b.timestamp a.timestamp)
      (msgs.filter (fun m => m.channel_name == channel && m.timestamp < ts))).take
      limit
  rows.reverse.map (fun m => m.content)

/-- The sanitization of `related_trade_id` in `store_analysis`
(lines 230-232): `0` or absent becomes "no related trade". -/
def sanitizeRelated : Option Int → Option Int
  | none => none
  | some v => if v == 0 then none else some v

/-- The Mongo `update_one(..., upsert=True)` keyed on the unique
`message_id`: replace the matching row, else append. -/
def upsertAnalysis (row : AnalysisRow) (rows : List AnalysisRow) :
    List AnalysisRow :=
  if rows.any (fun r => r.message_id == row.message_id) then
    rows.map (fun r => if r.message_id == row.message_id then row else r)
  else rows ++ [row]

/-- `store_analysis` (lines 221-257): enrich the analysis dict with
usage and raw response, extract the key columns, sanitize the related
trade id, and upsert by message id. -/
def store_analysis (now : Nat) (mid : Int) (analysis : AnalysisDict)
    (usage : UsageD) (raw : Option String) (rows : List AnalysisRow) :
    List AnalysisRow :=
  let payload :=
    { analysis with usage := some usage,
                    raw_response :=
                      match raw with
                      | some r => some r
                      | none => analysis.raw_response }
  upsertAnalysis
    { message_id := mid,
      action_type := payload.action_type,
      related_trade_id := sanitizeRelated payload.related_trade_id,
      reason := payload.reason,
      confidence_score := payload.confidence_score,
      analysis_payload := payload,
      analysis_timestamp := now } rows

/-- The enriched dict visible to the caller after `store_analysis`
mutates the shared `analysis` object in place. -/
def enrichDict (analysis : AnalysisDict) (usage : UsageD)
    (raw : Option String) : AnalysisDict :=
  { analysis with usage := some usage,
                  raw_response :=
                    match raw with
                    | some r => some r
                    | none => analysis.raw_response }

/-- `mark_message_processed` (lines 267-272). -/
def mark_message_processed (mid : Int) (msgs : List Msg) : List Msg :=
  msgs.map (fun m =>
    if m.message_id == mid then { m with processed := true } else m)

/-- Whether the classification is queued as a trade action
(line 306). -/
def actionable (a : String) : Bool :=
  a == "new_trade" || a == "trade_update" || a == "trade_close"

/-- The cache-hit path of `process_message` (lines 293-298 and
306-309): reuse the stored payload unchanged, queue it if actionable,
flip the processed flag; no classifier call, no cache write. -/
def hitStep (mid : Int) (cached : AnalysisRow) (s : PState) : PState :=
  let analysis := cached.analysis_payload
  let s1 :=
    if actionable analysis.action_type then
      { s with actionQueue := s.actionQueue ++ [(mid, analysis)] }
    else s
  { s1 with messages := mark_message_processed mid s1.messages }

/-- The cache-miss path of `process_message` (lines 299-309): build the
prompt context, invoke the external classifier once, store the enriched
result, queue it if actionable, flip the processed flag. -/
def missStep (az : Analyzer) (now todayStart : Nat) (mid : Int) (msg : Msg)
    (s : PState) : PState :=
  let replyChain := fetch_reply_chain s.messages mid
  let todays := load_todays_trades todayStart s.trades
  let history :=
    load_recent_history s.messages msg.channel_name msg.timestamp 10
  let (res, usage, raw) := az (trimStr msg.content) history replyChain todays
  let enriched := enrichDict res usage raw
  let s1 :=
    { s with
        calls := s.calls + 1,
        analyses := store_analysis now mid res usage raw s.analyses }
  let s2 :=
    if actionable enriched.action_type then
      { s1 with actionQueue := s1.actionQueue ++ [(mid, enriched)] }
    else s1
  { s2 with messages := mark_message_processed mid s2.messages }

/-- `MessageProcessor.process_message` (lines 274-312): fetch the
message, skip empty content, consult the AnalysisCache, then take
the hit or miss path. -/
def process_message (az : Analyzer) (now todayStart : Nat) (mid : Int)
    (s : PState) : PState :=
  match s.messages.find? (fun m => m.message_id == mid) with
  | none => s
  | some msg =>
      if trimStr msg.content == "" then
        { s with messages := mark_message_processed mid s.messages }
      else
        match s.analyses.find? (fun a => a.message_id == mid) with
        | some cached => hitStep mid cached s
        | none => missStep az now todayStart mid msg s

end TradeBot.Processor

namespace TradeBot.Manager

/-! ## Concrete fixtures used by witnesses and counterexamples -/

/-- An open trade with two contracts. -/
def openTrade : Trade :=
  { trade_id := 1, status := "open", quantity := 2, stop_loss := none,
    take_profit := none, updated_at := none, closed_at := none }

def dbOpen : DB := ⟨[openTrade], []⟩

/-- A `trade_update` action whose details trim two contracts. -/
def trimCtx : ActionCtx :=
  { analysis_id := some 7, reason := some "took profit",
    related_trade_id := some 1, payload := { details := some "trim 2" } }

/-- An open trade with five contracts. -/
def qty5Trade : Trade :=
  { trade_id := 1, status := "open", quantity := 5, stop_loss := none,
    take_profit := none, updated_at := none, closed_at := none }

def dbQty5 : DB := ⟨[qty5Trade], []⟩

/-- A `trade_update` action whose details change nothing. -/
def holdCtx : ActionCtx :=
  { analysis_id := some 8, reason := some "commentary",
    related_trade_id := some 1, payload := { details := some "hold steady" } }

/-- A trade that is already closed. -/
def closedTrade : Trade :=
  { trade_id := 1, status := "closed", quantity := 0, stop_loss := none,
    take_profit := none, updated_at := some 5, closed_at := some 5 }

def dbClosed : DB := ⟨[closedTrade], []⟩

/-- A `trade_close` action aimed at the closed trade. -/
def closeCtx : ActionCtx :=
  { analysis_id := some 9, reason := some "exit now",
    related_trade_id := some 1, payload := {} }

end TradeBot.Manager

deriving instance DecidableEq for Except

namespace TradeBot.Processor

/-- A linear reply chain of twelve messages: message `k + 1` replies to
message `k`; message 1 is the root. -/
def chainMsgs : List Msg :=
  (List.range 12).map (fun (i : Nat) =>
    { message_id := (i : Int) + 1, content := "m", channel_name := "c",
      timestamp := i, parent_id := if i = 0 then none else some (i : Int) })

/-- Two messages whose parent links form a two-cycle. -/
def cycMsgs : List Msg :=
  [{ message_id := 1, content := "a", channel_name := "c", timestamp := 0,
     parent_id := some 2 },
   { message_id := 2, content := "b", channel_name := "c", timestamp := 1,
     parent_id := some 1 }]

/-- A trade created after the start of the current day, already
closed. -/
def tClosedToday : MTrade :=
  { trade_id := 1, symbol := "AAPL", option_type := "CALL", strike := 150,
    expiration := "2026-10-16", status := "closed", quantity := 0,
    created_at := 100 }

/-- A trade created before the start of the current day, still open. -/
def tOpenYesterday : MTrade :=
  { trade_id := 2, symbol := "MSFT", option_type := "PUT", strike := 400,
    expiration := "2026-10-16", status := "open", quantity := 5,
    created_at := 50 }

/-- 2026-10-16, a Friday. -/
def fridayDate : PyDate := ⟨2026, 10, 16⟩

/-- 2026-10-12, a Monday. -/
def mondayDate : PyDate := ⟨2026, 10, 12⟩

/-- The `YYYY-MM-DD` shape: exactly ten characters, digits in the date
positions and dashes between the fields. -/
def isIsoDateStr (s : String) : Bool :=
  match s.data with
  | [a, b, c, d, e, f, g, h, i, j] =>
      a.isDigit && b.isDigit && c.isDigit && d.isDigit && (e == '-') &&
        f.isDigit && g.isDigit && (h == '-') && i.isDigit && j.isDigit
  | _ => false

/-- A nonempty raw message. -/
def msgW : Msg :=
  { message_id := 5, content := " buy AAPL ", channel_name := "alerts",
    timestamp := 50, parent_id := none }

/-- A cached analysis row for that message. -/
def cachedRowW : AnalysisRow :=
  { message_id := 5, action_type := "irrelevant", related_trade_id := none,
    reason := some "chat", confidence_score := some 3,
    analysis_payload := { action_type := "irrelevant" },
    analysis_timestamp := 1 }

/-- A pipeline state whose cache already holds the analysis. -/
def sCachedW : PState :=
  { messages := [msgW], analyses := [cachedRowW], trades := [],
    actionQueue := [], calls := 0 }

/-- A concrete stand-in classifier. -/
def azW : Analyzer := fun _ _ _ _ => ({ action_type := "irrelevant" }, {}, none)

end TradeBot.Processor

/-! ## Theorems -/

namespace TradeBot

theorem mem_insertBy {α : Type} (le : α → α → Bool) (x a : α) :
    ∀ l : List α, a ∈ insertBy le x l ↔ a = x ∨ a ∈ l := by
  intro l
  induction l with
  | nil => simp [insertBy]
  | cons y ys ih =>
      by_cases h : le x y = true
      · simp [insertBy, h]
      · simp only [insertBy, h, Bool.false_eq_true, if_false, List.mem_cons, ih]
        tauto

theorem mem_sortBy {α : Type} (le : α → α → Bool) (a : α) :
    ∀ l : List α, a ∈ sortBy le l ↔ a ∈ l := by
  intro l
  induction l with
  | nil => simp [sortBy]
  | cons x xs ih => simp [sortBy, mem_insertBy, ih]

/-! ## Generic list lemmas -/

theorem find?_map_pres {α : Type} (f : α → α) (p : α → Bool)
    (hp : ∀ x, p (f x) = p x) :
    ∀ l : List α, (l.map f).find? p = (l.find? p).map f := by
  intro l
  induction l with
  | nil => rfl
  | cons x xs ih =>
      by_cases h : p x = true
      · rw [List.map_cons, List.find?_cons_of_pos _ (by rw [hp]; exact h),
          List.find?_cons_of_pos _ h, Option.map_some']
      · rw [List.map_cons,
          List.find?_cons_of_neg _ (by rw [hp]; exact h),
          List.find?_cons_of_neg _ h, ih]

theorem map_eq_self {α : Type} (f : α → α) :
    ∀ l : List α, (∀ x ∈ l, f x = x) → l.map f = l := by
  intro l
  induction l with
  | nil => intro _; rfl
  | cons x xs ih =>
      intro h
      rw [List.map_cons, h x (List.mem_cons_self x xs),
        ih (fun y hy => h y (List.mem_cons_of_mem x hy))]

end TradeBot

namespace TradeBot.Manager

/-! ## Trade-manager lemmas -/

theorem closeRow_trade_id (now : Nat) (tid : Int) (t : Trade) :
    (closeRow now tid t).trade_id = t.trade_id := by
  unfold closeRow; split <;> rfl

theorem updateRow_trade_id (now : Nat) (tid : Int) (p : UPayload)
    (slChanged tpChanged : Bool) (qce newQty : Int) (t : Trade) :
    (updateRow now tid p slChanged tpChanged qce newQty t).trade_id =
      t.trade_id := by
  unfold updateRow; split <;> rfl

theorem closeRow_quantity_nonneg (now : Nat) (tid : Int) (t : Trade)
    (h : 0 ≤ t.quantity) : 0 ≤ (closeRow now tid t).quantity := by
  unfold closeRow; split
  · exact le_refl 0
  · exact h

theorem close_trade_preserves_nonneg (now : Nat) (ctx : ActionCtx) (db : DB)
    (h : ∀ t ∈ db.trades, 0 ≤ t.quantity) :
    ∀ t ∈ (close_trade now ctx db).trades, 0 ≤ t.quantity := by
  intro t ht
  unfold close_trade at ht
  split at ht
  · exact h t ht
  · rcases List.mem_map.mp ht with ⟨u, hu, rfl⟩
    exact closeRow_quantity_nonneg _ _ _ (h u hu)

theorem map_updateRow_nonneg (now : Nat) (tid : Int) (p : UPayload)
    (slC tpC : Bool) (qce newQty : Int) (l : List Trade)
    (h : ∀ t ∈ l, 0 ≤ t.quantity) (hnq : 0 ≤ newQty) :
    ∀ t ∈ l.map (updateRow now tid p slC tpC qce newQty), 0 ≤ t.quantity := by
  intro t ht
  rcases List.mem_map.mp ht with ⟨u, hu, rfl⟩
  unfold updateRow
  split
  · by_cases hq : (qce != 0) = true
    · simp [hq]
      exact hnq
    · simp [hq]
      exact h u hu
  · exact h u hu

theorem update_trade_step_nonneg (now : Nat) (ctx : ActionCtx) (db : DB)
    (h : ∀ t ∈ db.trades, 0 ≤ t.quantity) :
    ∀ t ∈ (update_trade now ctx db).trades, 0 ≤ t.quantity := by
  by_cases hf : falsyId ctx.related_trade_id = true
  · simp only [update_trade, hf, if_true]
    exact h
  · rcases hfind : db.trades.find?
        (fun x => x.trade_id == ctx.related_trade_id.getD 0) with _ | trade
    · simp only [update_trade, hf, Bool.false_eq_true, if_false, hfind]
      exact h
    · rcases hqc : computeQuantityChange
          (lowerStr (ctx.payload.details.getD "")) trade.quantity with e | qcOpt
      · simp only [update_trade, hf, Bool.false_eq_true, if_false, hfind, hqc]
        exact h
      · simp only [update_trade, hf, Bool.false_eq_true, if_false, hfind, hqc]
        intro t ht
        split at ht
        · -- some change or a nonempty details string
          have hdb1 : ∀ u ∈
              (if (fieldChanged ctx.payload.stop_loss trade.stop_loss ||
                    fieldChanged ctx.payload.take_profit trade.take_profit ||
                    (qcOpt.getD 0 != 0)) = true then
                { db with trades := db.trades.map (updateRow now
                    (ctx.related_trade_id.getD 0) ctx.payload
                    (fieldChanged ctx.payload.stop_loss trade.stop_loss)
                    (fieldChanged ctx.payload.take_profit trade.take_profit)
                    (qcOpt.getD 0) (max 0 (trade.quantity + qcOpt.getD 0))) }
              else db).trades, 0 ≤ u.quantity := by
            split
            · exact map_updateRow_nonneg _ _ _ _ _ _ _ _ h (le_max_left 0 _)
            · exact h
          split at ht
          · exact hdb1 t ht
          · split at ht
            · exact close_trade_preserves_nonneg _ _ _ hdb1 t ht
            · exact hdb1 t ht
        · exact h t ht

/-! ## Claim theorems for the trade manager -/

theorem falsyId_getD (o : Option Int) (h : falsyId o = false) :
    falsyId (some (o.getD 0)) = false := by
  cases o with
  | none => simp [falsyId] at h
  | some v => simpa [falsyId] using h

/-- C6: a `trade_update` whose `related_trade_id` is absent (or falsy)
or does not match an existing trade row mutates nothing: no trade
change, no history event, the whole state is returned untouched. -/
theorem update_trade_unresolved_id_noop (now : Nat) (ctx : ActionCtx)
    (db : DB)
    (h : falsyId ctx.related_trade_id = true ∨
      db.trades.find? (fun t => t.trade_id == ctx.related_trade_id.getD 0) =
        none) :
    update_trade now ctx db = db := by
  rcases h with h | h
  · simp only [update_trade, h, if_true]
  · by_cases hf : falsyId ctx.related_trade_id = true
    · simp only [update_trade, hf, if_true]
    · simp only [update_trade, hf, Bool.false_eq_true, if_false, h]

theorem update_trade_unresolved_id_noop_witness :
    update_trade 3
      { analysis_id := some 1, related_trade_id := some 42,
        payload := { details := some "trim 50%" } } ⟨[], []⟩ = ⟨[], []⟩ :=
  update_trade_unresolved_id_noop 3 _ _ (Or.inr (by decide))

/-- C2: over any sequence of update operations, trade quantities stay
nonnegative: every computed quantity change is floored at 0 by the
`max(0, ...)` before being written, and the synchronous close writes 0. -/
theorem update_trade_quantity_nonneg (ops : List (Nat × ActionCtx)) (db : DB)
    (h : ∀ t ∈ db.trades, 0 ≤ t.quantity) :
    ∀ t ∈ (ops.foldl (fun d oc => update_trade oc.1 oc.2 d) db).trades,
      0 ≤ t.quantity := by
  induction ops generalizing db with
  | nil => exact h
  | cons op rest ih =>
      simp only [List.foldl_cons]
      exact ih _ (update_trade_step_nonneg op.1 op.2 db h)

theorem update_trade_quantity_nonneg_witness :
    (∀ t ∈ dbOpen.trades, 0 ≤ t.quantity) ∧
      (∀ t ∈ ([((5 : Nat), trimCtx)].foldl
          (fun d oc => update_trade oc.1 oc.2 d) dbOpen).trades,
        0 ≤ t.quantity) :=
  ⟨by decide, update_trade_quantity_nonneg [(5, trimCtx)] dbOpen (by decide)⟩

/-- C3 counterexample: closing an already-closed trade leaves the trade
row unchanged but appends a fresh `close` history event, so the history
log is not identical before and after the call. -/
theorem close_trade_already_closed_cex :
    closedTrade.status = "closed" ∧
    (close_trade 10 closeCtx dbClosed).trades = dbClosed.trades ∧
    (close_trade 10 closeCtx dbClosed).history ≠ dbClosed.history := by
  decide

/-- C3 amended: invoking `close_trade` on a trade whose rows with the
given id are all already closed leaves the trades table (including
`closed_at`) unchanged, but appends one more `close` history event on
every invocation; only the row update is idempotent, not the log. -/
theorem close_trade_already_closed_amended (now : Nat) (ctx : ActionCtx)
    (db : DB) (h1 : falsyId ctx.related_trade_id = false)
    (h2 : ∀ t ∈ db.trades,
      t.trade_id = ctx.related_trade_id.getD 0 → t.status = "closed") :
    (close_trade now ctx db).trades = db.trades ∧
    (close_trade now ctx db).history = db.history ++
      [⟨ctx.related_trade_id.getD 0, ctx.analysis_id, "close",
        .closeD ctx.reason ctx.confidence ctx.payload⟩] := by
  constructor
  · simp only [close_trade, h1, Bool.false_eq_true, if_false]
    refine map_eq_self _ _ (fun t ht => ?_)
    unfold closeRow
    split
    · rename_i hc
      rw [Bool.and_eq_true] at hc
      have hid : t.trade_id = ctx.related_trade_id.getD 0 := by
        exact_mod_cast of_decide_eq_true hc.1
      have hst := h2 t ht hid
      rw [bne_iff_ne] at hc
      exact absurd hst hc.2
    · rfl
  · simp only [close_trade, h1, Bool.false_eq_true, if_false]

theorem close_trade_already_closed_amended_witness :
    (close_trade 10 closeCtx dbClosed).trades = dbClosed.trades ∧
    (close_trade 10 closeCtx dbClosed).history = dbClosed.history ++
      [⟨closeCtx.related_trade_id.getD 0, closeCtx.analysis_id, "close",
        .closeD closeCtx.reason closeCtx.confidence closeCtx.payload⟩] :=
  close_trade_already_closed_amended 10 closeCtx dbClosed (by decide)
    (by decide)

/-- C5 counterexample: an update with no stop-loss/take-profit change
and a computed quantity change of 0 still appends an `update` history
event when the free-text details are non-empty, so the trade-history
table is not left unchanged. -/
theorem update_trade_noop_details_cex :
    computeQuantityChange "hold steady" 5 = .ok none ∧
    fieldChanged holdCtx.payload.stop_loss qty5Trade.stop_loss = false ∧
    fieldChanged holdCtx.payload.take_profit qty5Trade.take_profit = false ∧
    (update_trade 7 holdCtx dbQty5).trades = dbQty5.trades ∧
    (update_trade 7 holdCtx dbQty5).history ≠ dbQty5.history := by
  decide

/-- C5 amended: when no stop-loss/take-profit field differs and the
computed quantity change is 0 (for a trade with positive quantity), the
trades table is untouched; the history is untouched only when the
lowercased details text is empty — a non-empty details text still
appends an `update` event recording it. -/
theorem update_trade_noop_amended (now : Nat) (ctx : ActionCtx) (db : DB)
    (t : Trade) (qcOpt : Option Int)
    (h1 : falsyId ctx.related_trade_id = false)
    (hfind : db.trades.find?
      (fun x => x.trade_id == ctx.related_trade_id.getD 0) = some t)
    (hq : 0 < t.quantity)
    (hqc : computeQuantityChange (lowerStr (ctx.payload.details.getD ""))
      t.quantity = .ok qcOpt)
    (hq0 : qcOpt.getD 0 = 0)
    (hsl : fieldChanged ctx.payload.stop_loss t.stop_loss = false)
    (htp : fieldChanged ctx.payload.take_profit t.take_profit = false) :
    (update_trade now ctx db).trades = db.trades ∧
    (update_trade now ctx db).history =
      (if lowerStr (ctx.payload.details.getD "") = "" then db.history
       else db.history ++
        [⟨ctx.related_trade_id.getD 0, ctx.analysis_id, "update",
          .updateD ctx.reason ctx.confidence none none
            (qcOpt.map (fun qc => (t.quantity, qc, none)))
            (some (lowerStr (ctx.payload.details.getD "")))⟩]) := by
  have hupd : (fieldChanged ctx.payload.stop_loss t.stop_loss ||
      fieldChanged ctx.payload.take_profit t.take_profit ||
      (qcOpt.getD 0 != 0)) = false := by
    rw [hsl, htp, hq0]
    rfl
  have hnq : ¬ t.quantity ≤ 0 := not_le.mpr hq
  by_cases hd : lowerStr (ctx.payload.details.getD "") = ""
  · rw [hd] at hqc
    unfold update_trade
    rw [if_neg (by rw [h1]; exact Bool.false_ne_true), hd]
    simp only [hfind, hqc, hupd, Bool.false_or]
    simp
  · unfold update_trade
    rw [if_neg (by rw [h1]; exact Bool.false_ne_true)]
    simp only [hfind, hqc]
    rw [hupd]
    simp only [Bool.false_or, Bool.false_eq_true, if_false]
    rw [if_pos (by simpa using decide_eq_true hd), if_neg hd]
    simp only [hfind, hnq, if_false]
    refine ⟨trivial, ?_⟩
    have hqmap : qcOpt.map (fun qc =>
        (t.quantity, qc, if (qc != 0) = true then
          some (max 0 (t.quantity + qcOpt.getD 0)) else none)) =
        qcOpt.map (fun qc => (t.quantity, qc, none)) := by
      cases qcOpt with
      | none => rfl
      | some qc =>
          simp only [Option.getD_some] at hq0
          simp [hq0]
    simp only [hsl, htp, Bool.false_eq_true, if_false]
    rw [if_pos (by simpa using decide_eq_true hd)]
    simp only [hqmap]

theorem update_trade_noop_amended_witness :
    (update_trade 7 holdCtx dbQty5).trades = dbQty5.trades ∧
    (update_trade 7 holdCtx dbQty5).history =
      (if lowerStr (holdCtx.payload.details.getD "") = "" then dbQty5.history
       else dbQty5.history ++
        [⟨holdCtx.related_trade_id.getD 0, holdCtx.analysis_id, "update",
          .updateD holdCtx.reason holdCtx.confidence none none
            ((none : Option Int).map (fun qc => (qty5Trade.quantity, qc, none)))
            (some (lowerStr (holdCtx.payload.details.getD "")))⟩]) :=
  update_trade_noop_amended 7 holdCtx dbQty5 qty5Trade none (by decide)
    (by decide) (by decide) (by decide) (by decide) (by decide) (by decide)

theorem updateRow_status (now : Nat) (tid : Int) (p : UPayload)
    (slC tpC : Bool) (qce nq : Int) (t : Trade) :
    (updateRow now tid p slC tpC qce nq t).status = t.status := by
  unfold updateRow; split <;> rfl

theorem find?_tid_map_updateRow (now : Nat) (tid : Int) (p : UPayload)
    (slC tpC : Bool) (qce nq : Int) (tid2 : Int) (l : List Trade) :
    (l.map (updateRow now tid p slC tpC qce nq)).find?
        (fun x => x.trade_id == tid2) =
      (l.find? (fun x => x.trade_id == tid2)).map
        (updateRow now tid p slC tpC qce nq) :=
  find?_map_pres _ _ (fun x => by rw [updateRow_trade_id]) l

theorem find?_tid_map_closeRow (now : Nat) (tid : Int) (tid2 : Int)
    (l : List Trade) :
    (l.map (closeRow now tid)).find? (fun x => x.trade_id == tid2) =
      (l.find? (fun x => x.trade_id == tid2)).map (closeRow now tid) :=
  find?_map_pres _ _ (fun x => by rw [closeRow_trade_id]) l

theorem updateRow_apply (now : Nat) (tid : Int) (p : UPayload)
    (slC tpC : Bool) (qce nq : Int) (t : Trade)
    (h : (t.trade_id == tid) = true) :
    updateRow now tid p slC tpC qce nq t =
      { t with
          stop_loss := if slC then p.stop_loss else t.stop_loss,
          take_profit := if tpC then p.take_profit else t.take_profit,
          quantity := if qce != 0 then nq else t.quantity,
          updated_at := some now } := by
  unfold updateRow
  rw [if_pos h]

theorem closeRow_apply (now : Nat) (tid : Int) (t : Trade)
    (hid : (t.trade_id == tid) = true) (hst : t.status ≠ "closed") :
    closeRow now tid t =
      { t with status := "closed", quantity := 0,
               closed_at := some now, updated_at := some now } := by
  unfold closeRow
  rw [if_pos (by rw [hid, Bool.true_and, bne_iff_ne]; exact hst)]

/-- C4 amended: an update whose computed quantity change floors the
quantity to exactly 0 synchronously closes the trade with the same
triggering analysis — the trade ends closed with `closed_at` set, and
exactly two history events are appended, but the `close` event comes
first and the `update` event second (the source logs the update after
triggering the close). -/
theorem update_to_zero_closes_amended (now : Nat) (ctx : ActionCtx)
    (db : DB) (t : Trade) (qc : Int)
    (h1 : falsyId ctx.related_trade_id = false)
    (hfind : db.trades.find?
      (fun x => x.trade_id == ctx.related_trade_id.getD 0) = some t)
    (hstat : t.status ≠ "closed")
    (hqc : computeQuantityChange (lowerStr (ctx.payload.details.getD ""))
      t.quantity = .ok (some qc))
    (hqcne : (qc != 0) = true)
    (hzero : max 0 (t.quantity + qc) = 0) :
    (∃ t', (update_trade now ctx db).trades.find?
        (fun x => x.trade_id == ctx.related_trade_id.getD 0) = some t' ∧
      t'.status = "closed" ∧ t'.quantity = 0 ∧ t'.closed_at = some now) ∧
    (update_trade now ctx db).history = db.history ++
      [⟨ctx.related_trade_id.getD 0, ctx.analysis_id, "close",
        .closeD (some "Quantity reached zero after update") none {}⟩,
       ⟨ctx.related_trade_id.getD 0, ctx.analysis_id, "update",
        .updateD ctx.reason ctx.confidence
          (if fieldChanged ctx.payload.stop_loss t.stop_loss then
            some (t.stop_loss, ctx.payload.stop_loss.getD 0) else none)
          (if fieldChanged ctx.payload.take_profit t.take_profit then
            some (t.take_profit, ctx.payload.take_profit.getD 0) else none)
          (some (t.quantity, qc, some 0))
          (if lowerStr (ctx.payload.details.getD "") ≠ "" then
            some (lowerStr (ctx.payload.details.getD "")) else none)⟩] := by
  have htid : (t.trade_id == ctx.related_trade_id.getD 0) = true := by
    simpa using List.find?_some hfind
  have hfalsy2 : falsyId (some (ctx.related_trade_id.getD 0)) = false :=
    falsyId_getD _ h1
  have hasU : (fieldChanged ctx.payload.stop_loss t.stop_loss ||
      fieldChanged ctx.payload.take_profit t.take_profit ||
      (qc != 0)) = true := by
    rw [hqcne, Bool.or_true]
  have hupdT : updateRow now (ctx.related_trade_id.getD 0) ctx.payload
      (fieldChanged ctx.payload.stop_loss t.stop_loss)
      (fieldChanged ctx.payload.take_profit t.take_profit) qc
      (max 0 (t.quantity + qc)) t =
      { t with
          stop_loss := if fieldChanged ctx.payload.stop_loss t.stop_loss then
            ctx.payload.stop_loss else t.stop_loss,
          take_profit :=
            if fieldChanged ctx.payload.take_profit t.take_profit then
              ctx.payload.take_profit else t.take_profit,
          quantity := 0,
          updated_at := some now } := by
    rw [updateRow_apply _ _ _ _ _ _ _ _ htid, hqcne]
    simp only [if_true, hzero]
  unfold update_trade
  rw [if_neg (by rw [h1]; exact Bool.false_ne_true)]
  simp only [hfind, hqc, Option.getD_some, hasU, Bool.true_or,
    eq_self_iff_true, if_true, find?_tid_map_updateRow, Option.map_some',
    hupdT]
  rw [if_pos (le_refl (0 : Int))]
  unfold close_trade
  rw [if_neg (by rw [hfalsy2]; exact Bool.false_ne_true)]
  simp only [find?_tid_map_closeRow, find?_tid_map_updateRow, hfind,
    Option.map_some', Option.getD_some, hupdT]
  constructor
  · refine ⟨_, rfl, ?_⟩
    unfold closeRow
    rw [if_pos (by
      rw [Bool.and_eq_true]
      exact ⟨htid, by rw [bne_iff_ne]; exact hstat⟩)]
    exact ⟨rfl, rfl, rfl⟩
  · simp only [hqcne, if_true, hzero, List.append_assoc, List.cons_append,
      List.nil_append]

/-- C4 counterexample: on a quantity-to-zero update the two appended
history events are `close` first and `update` second, not `update`
then `close` as claimed. -/
theorem update_to_zero_event_order_cex :
    (update_trade 5 trimCtx dbOpen).history.map (fun e => e.event_type) =
      ["close", "update"] ∧
    ¬ (update_trade 5 trimCtx dbOpen).history.map (fun e => e.event_type) =
      ["update", "close"] := by
  decide

theorem update_to_zero_closes_amended_witness :
    (∃ t', (update_trade 5 trimCtx dbOpen).trades.find?
        (fun x => x.trade_id == trimCtx.related_trade_id.getD 0) = some t' ∧
      t'.status = "closed" ∧ t'.quantity = 0 ∧ t'.closed_at = some 5) ∧
    (update_trade 5 trimCtx dbOpen).history = dbOpen.history ++
      [⟨trimCtx.related_trade_id.getD 0, trimCtx.analysis_id, "close",
        .closeD (some "Quantity reached zero after update") none {}⟩,
       ⟨trimCtx.related_trade_id.getD 0, trimCtx.analysis_id, "update",
        .updateD trimCtx.reason trimCtx.confidence
          (if fieldChanged trimCtx.payload.stop_loss openTrade.stop_loss then
            some (openTrade.stop_loss, trimCtx.payload.stop_loss.getD 0)
           else none)
          (if fieldChanged trimCtx.payload.take_profit openTrade.take_profit
           then some (openTrade.take_profit, trimCtx.payload.take_profit.getD 0)
           else none)
          (some (openTrade.quantity, -2, some 0))
          (if lowerStr (trimCtx.payload.details.getD "") ≠ "" then
            some (lowerStr (trimCtx.payload.details.getD "")) else none)⟩] :=
  update_to_zero_closes_amended 5 trimCtx dbOpen openTrade (-2) (by decide)
    (by decide) (by decide) (by decide) (by decide) (by decide)

end TradeBot.Manager

namespace TradeBot.Processor

/-- C7: the upward walk of `fetch_reply_chain` is bounded only by the
visited set, not by the configured depth bound: on a 12-deep linear
chain it visits all 12 ancestors, exceeding the `max_reply_depth` of 10
that `__init__` sets and `fetch_reply_chain` never reads; on a cyclic
chain it terminates and returns the partial chain. -/
theorem reply_chain_depth_bound_unused :
    (parentChainIds chainMsgs 12).length = 12 ∧
    max_reply_depth = 10 ∧
    ¬ (parentChainIds chainMsgs 12).length ≤ max_reply_depth ∧
    parentChainIds cycMsgs 1 = [1, 2] ∧
    fetch_reply_chain cycMsgs 1 = "  a\nb" := by
  decide

/-- C8 counterexample: the snapshot passed to the classifier is keyed
on creation date, not status — a closed trade created during the
current day is included and an open trade created the day before is
excluded. -/
theorem todays_trades_status_cex :
    tClosedToday.status = "closed" ∧
    tOpenYesterday.status = "open" ∧
    projSnap tClosedToday ∈
      load_todays_trades 60 [tClosedToday, tOpenYesterday] ∧
    projSnap tOpenYesterday ∉
      load_todays_trades 60 [tClosedToday, tOpenYesterday] := by
  decide

/-- C8 amended: the trade snapshot assembled for the classifier
contains exactly the trades whose `created_at` is at or after the start
of the current day, regardless of status (the prompt itself says the
list includes all statuses for context), projected to the snapshot
columns. -/
theorem load_todays_trades_amended (todayStart : Nat) (trades : List MTrade)
    (snap : TradeSnap) :
    snap ∈ load_todays_trades todayStart trades ↔
      ∃ t, t ∈ trades ∧ todayStart ≤ t.created_at ∧ snap = projSnap t := by
  unfold load_todays_trades
  rw [List.mem_map]
  constructor
  · rintro ⟨t, ht, rfl⟩
    rw [mem_sortBy, List.mem_filter] at ht
    exact ⟨t, ht.1, by simpa using ht.2, rfl⟩
  · rintro ⟨t, ht, hle, rfl⟩
    refine ⟨t, ?_, rfl⟩
    rw [mem_sortBy, List.mem_filter]
    exact ⟨ht, by simpa⟩

/-- C9 counterexample: when the current date is itself a Friday, an
input containing "this week" returns the current date, not the next
Friday strictly after it (which would be seven days later). -/
theorem parse_expiration_friday_cex :
    pyWeekday fridayDate = 4 ∧
    parse_expiration_date fridayDate (some "this week") =
      some (pyIso fridayDate) ∧
    parse_expiration_date fridayDate (some "this week") =
      some "2026-10-16" ∧
    ¬ parse_expiration_date fridayDate (some "this week") =
      (pyAddDays fridayDate 7).map pyIso := by
  decide

/-- C9 amended: the branches are tried in source order with the
week keywords first: an input containing "this week"/"end of week"
(case-insensitively) returns the date `(4 - weekday + 7) % 7` days
ahead — the Friday on or after the current date, the current date
itself when it is a Friday (an offset of 0, with the offset landing on
weekday 4 and never reaching a week ahead); otherwise "0dte"/"today"
returns the current date; otherwise "tomorrow" returns the next day;
otherwise the four explicit formats are tried in order and an
unparseable input falls back to the current date. -/
theorem parse_expiration_amended (today : PyDate) (s : String) :
    (0 ≤ pyWeekday today ∧ pyWeekday today < 7) ∧
    (0 ≤ (4 - pyWeekday today + 7).emod 7 ∧
      (4 - pyWeekday today + 7).emod 7 < 7) ∧
    (pyWeekday today + (4 - pyWeekday today + 7).emod 7).emod 7 = 4 ∧
    ((4 - pyWeekday today + 7).emod 7 = 0 ↔ pyWeekday today = 4) ∧
    ((strContains (lowerStr s) "this week" ||
        strContains (lowerStr s) "end of week") = true →
      parse_expiration_date today (some s) =
        (pyAddDays today ((4 - pyWeekday today + 7).emod 7)).map pyIso) ∧
    ((strContains (lowerStr s) "this week" ||
        strContains (lowerStr s) "end of week") = false →
      (strContains (lowerStr s) "0dte" ||
        strContains (lowerStr s) "today") = true →
      parse_expiration_date today (some s) = some (pyIso today)) ∧
    ((strContains (lowerStr s) "this week" ||
        strContains (lowerStr s) "end of week") = false →
      (strContains (lowerStr s) "0dte" ||
        strContains (lowerStr s) "today") = false →
      strContains (lowerStr s) "tomorrow" = true →
      parse_expiration_date today (some s) =
        (pyAddDays today 1).map pyIso) ∧
    ((strContains (lowerStr s) "this week" ||
        strContains (lowerStr s) "end of week") = false →
      (strContains (lowerStr s) "0dte" ||
        strContains (lowerStr s) "today") = false →
      strContains (lowerStr s) "tomorrow" = false →
      parse_expiration_date today (some s) =
        (match strptimeYmd (lowerStr s) <|> strptimeMdY (lowerStr s) <|>
            strptimeMdy (lowerStr s) <|> strptimeBdY (lowerStr s) with
          | some d => some (pyIso d)
          | none => some (pyIso today))) := by
  have h0 : 0 ≤ pyWeekday today := Int.emod_nonneg _ (by norm_num)
  have h1 : pyWeekday today < 7 := Int.emod_lt_of_pos _ (by norm_num)
  have hk0 : 0 ≤ (4 - pyWeekday today + 7).emod 7 :=
    Int.emod_nonneg _ (by norm_num)
  have hk1 : (4 - pyWeekday today + 7).emod 7 < 7 :=
    Int.emod_lt_of_pos _ (by norm_num)
  refine ⟨⟨h0, h1⟩, ⟨hk0, hk1⟩, ?_, ?_, ?_, ?_, ?_, ?_⟩
  · set w := pyWeekday today with hw
    interval_cases w <;> decide
  · set w := pyWeekday today with hw
    interval_cases w <;> decide
  · intro hw
    simp only [parse_expiration_date, hw, eq_self_iff_true, if_true]
  · intro hw ht
    simp only [parse_expiration_date, hw, ht, Bool.false_eq_true, if_false,
      eq_self_iff_true, if_true]
  · intro hw ht hm
    simp only [parse_expiration_date, hw, ht, hm, Bool.false_eq_true,
      if_false, eq_self_iff_true, if_true]
  · intro hw ht hm
    simp only [parse_expiration_date, hw, ht, hm, Bool.false_eq_true,
      if_false]

theorem parse_expiration_amended_witness :
    parse_expiration_date mondayDate (some "this week") =
      (pyAddDays mondayDate
        ((4 - pyWeekday mondayDate + 7).emod 7)).map pyIso ∧
    parse_expiration_date mondayDate (some "0dte lotto") =
      some (pyIso mondayDate) :=
  ⟨(parse_expiration_amended mondayDate "this week").2.2.2.2.1 (by decide),
   (parse_expiration_amended mondayDate "0dte lotto").2.2.2.2.2.1
     (by decide) (by decide)⟩

theorem digitChar_isDigit (n : Nat) : (digitChar n).isDigit = true := by
  unfold digitChar
  have h : n % 10 < 10 := Nat.mod_lt _ (by norm_num)
  generalize n % 10 = r at h ⊢
  interval_cases r <;> decide

theorem pyIso_isIso (d : PyDate) : isIsoDateStr (pyIso d) = true := by
  unfold pyIso isIsoDateStr pad4 pad2
  simp only [List.cons_append, List.nil_append, digitChar_isDigit]
  rfl

/-- C10: at the public boundary `parse_expiration_date` is total: for
every input value (a non-string modelled as `none`, or arbitrary text)
it returns a `YYYY-MM-DD` string and raises nothing, provided the
current date is a representable date at least a week away from
`date.max` (at the very edge of the calendar a `timedelta` addition
would overflow). -/
theorem parse_expiration_total (today : PyDate) (input : Option String)
    (h1 : minRD ≤ toRD today) (h2 : toRD today + 7 ≤ maxRD) :
    ∃ out, parse_expiration_date today input = some out ∧
      isIsoDateStr out = true := by
  cases input with
  | none => exact ⟨pyIso today, rfl, pyIso_isIso _⟩
  | some s =>
      have hk0 : 0 ≤ (4 - pyWeekday today + 7).emod 7 :=
        Int.emod_nonneg _ (by norm_num)
      have hk1 : (4 - pyWeekday today + 7).emod 7 < 7 :=
        Int.emod_lt_of_pos _ (by norm_num)
      by_cases hw : (strContains (lowerStr s) "this week" ||
          strContains (lowerStr s) "end of week") = true
      · simp only [parse_expiration_date, hw, eq_self_iff_true, if_true]
        unfold pyAddDays
        rw [if_pos ⟨by omega, by omega⟩]
        exact ⟨_, rfl, pyIso_isIso _⟩
      · rw [Bool.not_eq_true] at hw
        by_cases ht : (strContains (lowerStr s) "0dte" ||
            strContains (lowerStr s) "today") = true
        · simp only [parse_expiration_date, hw, ht, Bool.false_eq_true,
            if_false, eq_self_iff_true, if_true]
          exact ⟨_, rfl, pyIso_isIso _⟩
        · rw [Bool.not_eq_true] at ht
          by_cases hm : strContains (lowerStr s) "tomorrow" = true
          · simp only [parse_expiration_date, hw, ht, hm,
              Bool.false_eq_true, if_false, eq_self_iff_true, if_true]
            unfold pyAddDays
            rw [if_pos ⟨by omega, by omega⟩]
            exact ⟨_, rfl, pyIso_isIso _⟩
          · rw [Bool.not_eq_true] at hm
            simp only [parse_expiration_date, hw, ht, hm,
              Bool.false_eq_true, if_false]
            rcases strptimeYmd (lowerStr s) <|> strptimeMdY (lowerStr s) <|>
                strptimeMdy (lowerStr s) <|> strptimeBdY (lowerStr s) with
              _ | d
            · exact ⟨_, rfl, pyIso_isIso _⟩
            · exact ⟨_, rfl, pyIso_isIso _⟩

theorem parse_expiration_total_witness :
    minRD ≤ toRD mondayDate ∧ toRD mondayDate + 7 ≤ maxRD ∧
    (∃ out, parse_expiration_date mondayDate (some "see you tomorrow") =
      some out ∧ isIsoDateStr out = true) :=
  ⟨by decide, by decide,
   parse_expiration_total mondayDate (some "see you tomorrow") (by decide)
     (by decide)⟩

/-! ## Cache idempotency of `process_message` -/

theorem hitStep_analyses (mid : Int) (cached : AnalysisRow) (s : PState) :
    (hitStep mid cached s).analyses = s.analyses := by
  unfold hitStep; dsimp only; split <;> rfl

theorem hitStep_calls (mid : Int) (cached : AnalysisRow) (s : PState) :
    (hitStep mid cached s).calls = s.calls := by
  unfold hitStep; dsimp only; split <;> rfl

theorem hitStep_messages (mid : Int) (cached : AnalysisRow) (s : PState) :
    (hitStep mid cached s).messages =
      mark_message_processed mid s.messages := by
  unfold hitStep; dsimp only; split <;> rfl

theorem hitStep_trades (mid : Int) (cached : AnalysisRow) (s : PState) :
    (hitStep mid cached s).trades = s.trades := by
  unfold hitStep; dsimp only; split <;> rfl

theorem missStep_calls (az : Analyzer) (now ts : Nat) (mid : Int)
    (msg : Msg) (s : PState) :
    (missStep az now ts mid msg s).calls = s.calls + 1 := by
  unfold missStep
  dsimp only
  split <;> rfl

theorem missStep_analyses (az : Analyzer) (now ts : Nat) (mid : Int)
    (msg : Msg) (s : PState) :
    (missStep az now ts mid msg s).analyses =
      store_analysis now mid
        (az (trimStr msg.content)
          (load_recent_history s.messages msg.channel_name msg.timestamp 10)
          (fetch_reply_chain s.messages mid)
          (load_todays_trades ts s.trades)).1
        (az (trimStr msg.content)
          (load_recent_history s.messages msg.channel_name msg.timestamp 10)
          (fetch_reply_chain s.messages mid)
          (load_todays_trades ts s.trades)).2.1
        (az (trimStr msg.content)
          (load_recent_history s.messages msg.channel_name msg.timestamp 10)
          (fetch_reply_chain s.messages mid)
          (load_todays_trades ts s.trades)).2.2 s.analyses := by
  unfold missStep
  dsimp only
  split <;> rfl

theorem missStep_messages (az : Analyzer) (now ts : Nat) (mid : Int)
    (msg : Msg) (s : PState) :
    (missStep az now ts mid msg s).messages =
      mark_message_processed mid s.messages := by
  unfold missStep
  dsimp only
  split <;> rfl

theorem mark_preserves_find (mid : Int) (msgs : List Msg) (msg : Msg)
    (hm : msgs.find? (fun m => m.message_id == mid) = some msg) :
    (mark_message_processed mid msgs).find?
        (fun m => m.message_id == mid) =
      some { msg with processed := true } := by
  unfold mark_message_processed
  rw [find?_map_pres _ _ (fun x => by
    by_cases hx : (x.message_id == mid) = true
    · simp [hx]
    · simp [hx]), hm, Option.map_some']
  rw [if_pos (by simpa using List.find?_some hm)]

theorem find?_upsert_isSome (row : AnalysisRow) (rows : List AnalysisRow) :
    ((upsertAnalysis row rows).find?
      (fun r => r.message_id == row.message_id)).isSome = true := by
  unfold upsertAnalysis
  by_cases hany : rows.any (fun r => r.message_id == row.message_id) = true
  · rw [if_pos hany]
    induction rows with
    | nil => simp at hany
    | cons r rs ih =>
        rw [List.map_cons]
        by_cases hr : (r.message_id == row.message_id) = true
        · rw [if_pos hr]
          simp only [List.find?, beq_self_eq_true]
          rfl
        · have hrf : (r.message_id == row.message_id) = false := by
            rwa [Bool.not_eq_true] at hr
          rw [if_neg hr]
          simp only [List.find?, hrf]
          exact ih (by simpa [hrf] using hany)
  · rw [if_neg hany]
    have happ : ∀ l : List AnalysisRow,
        (∀ x ∈ l, (x.message_id == row.message_id) = false) →
        ((l ++ [row]).find?
          (fun r => r.message_id == row.message_id)).isSome = true := by
      intro l
      induction l with
      | nil =>
          intro _
          simp only [List.nil_append, List.find?, beq_self_eq_true]
          rfl
      | cons x xs ih =>
          intro hall
          rw [List.cons_append]
          simp only [List.find?, hall x (List.mem_cons_self x xs)]
          exact ih (fun y hy => hall y (List.mem_cons_of_mem x hy))
    refine happ rows (fun x hx => ?_)
    by_cases hb : (x.message_id == row.message_id) = true
    · exact absurd (List.any_eq_true.mpr ⟨x, hx, hb⟩) hany
    · rwa [Bool.not_eq_true] at hb

theorem store_analysis_find_isSome (now : Nat) (mid : Int)
    (analysis : AnalysisDict) (usage : UsageD) (raw : Option String)
    (rows : List AnalysisRow) :
    ((store_analysis now mid analysis usage raw rows).find?
      (fun r => r.message_id == mid)).isSome = true := by
  unfold store_analysis
  dsimp only
  exact find?_upsert_isSome
    { message_id := mid,
      action_type := (enrichDict analysis usage raw).action_type,
      related_trade_id :=
        sanitizeRelated (enrichDict analysis usage raw).related_trade_id,
      reason := (enrichDict analysis usage raw).reason,
      confidence_score := (enrichDict analysis usage raw).confidence_score,
      analysis_payload := enrichDict analysis usage raw,
      analysis_timestamp := now } rows

/-- On a cache hit `process_message` leaves the stored analyses and the
call counter untouched, whatever else it does. -/
theorem pm_cache_hit (az : Analyzer) (now ts : Nat) (mid : Int) (s : PState)
    (h : (s.analyses.find? (fun a => a.message_id == mid)).isSome = true) :
    (process_message az now ts mid s).analyses = s.analyses ∧
    (process_message az now ts mid s).calls = s.calls := by
  unfold process_message
  rcases hm : s.messages.find? (fun m => m.message_id == mid) with _ | msg
  · rw [hm]
    exact ⟨rfl, rfl⟩
  · rw [hm]
    dsimp only
    by_cases hc : (trimStr msg.content == "") = true
    · rw [if_pos hc]
      exact ⟨rfl, rfl⟩
    · rw [if_neg hc]
      rcases hcc : s.analyses.find? (fun a => a.message_id == mid) with
        _ | cached
      · rw [hcc] at h
        simp at h
      · rw [hcc]
        exact ⟨hitStep_analyses mid cached s, hitStep_calls mid cached s⟩

/-- Two consecutive classification runs for the same message id: the
second run changes no stored analysis, and together they make at most
one external classifier call. -/
theorem pm_twice (az : Analyzer) (now1 now2 ts : Nat) (mid : Int)
    (s : PState) :
    (process_message az now2 ts mid
        (process_message az now1 ts mid s)).analyses =
      (process_message az now1 ts mid s).analyses ∧
    (process_message az now2 ts mid
        (process_message az now1 ts mid s)).calls ≤ s.calls + 1 := by
  rcases hm : s.messages.find? (fun m => m.message_id == mid) with _ | msg
  · have e : ∀ n : Nat, process_message az n ts mid s = s := fun n => by
      unfold process_message
      rw [hm]
    rw [e now1, e now2]
    exact ⟨rfl, Nat.le_succ _⟩
  · by_cases hc : (trimStr msg.content == "") = true
    · have e1 : process_message az now1 ts mid s =
          { s with messages := mark_message_processed mid s.messages } := by
        unfold process_message
        rw [hm]
        dsimp only
        rw [if_pos hc]
      have hfind2 : (mark_message_processed mid s.messages).find?
          (fun m => m.message_id == mid) =
          some { msg with processed := true } :=
        mark_preserves_find mid s.messages msg hm
      have e2 : process_message az now2 ts mid
          { s with messages := mark_message_processed mid s.messages } =
          { s with messages := mark_message_processed mid (mark_message_processed mid s.messages) } := by
        unfold process_message
        dsimp only
        rw [hfind2]
        dsimp only
        rw [if_pos hc]
      rw [e1, e2]
      exact ⟨rfl, Nat.le_succ _⟩
    · rcases hcc : s.analyses.find? (fun a => a.message_id == mid) with
        _ | cached
      · -- cache miss on the first run, hit on the second
        have e1 : process_message az now1 ts mid s =
            missStep az now1 ts mid msg s := by
          unfold process_message
          rw [hm]
          dsimp only
          rw [if_neg hc, hcc]
        rw [e1]
        have h2 : ((missStep az now1 ts mid msg s).analyses.find?
            (fun a => a.message_id == mid)).isSome = true := by
          rw [missStep_analyses]
          exact store_analysis_find_isSome _ _ _ _ _ _
        refine ⟨(pm_cache_hit az now2 ts mid _ h2).1, ?_⟩
        rw [(pm_cache_hit az now2 ts mid _ h2).2, missStep_calls]
      · -- cache hit on both runs
        have e1 : process_message az now1 ts mid s =
            hitStep mid cached s := by
          unfold process_message
          rw [hm]
          dsimp only
          rw [if_neg hc, hcc]
        rw [e1]
        have h2 : ((hitStep mid cached s).analyses.find?
            (fun a => a.message_id == mid)).isSome = true := by
          rw [hitStep_analyses, hcc]
          rfl
        refine ⟨(pm_cache_hit az now2 ts mid _ h2).1, ?_⟩
        rw [(pm_cache_hit az now2 ts mid _ h2).2, hitStep_calls]
        exact Nat.le_succ _

/-- C1: classification is memoized on the message id. If an analysis
row already exists, `process_message` reuses the stored payload: the
analyses collection is byte-identical afterwards and the classifier is
not invoked. Consequently two classification runs for the same message
store one analysis (the second run leaves the store unchanged) and make
at most one external call between them. -/
theorem classification_cache_idempotent (az : Analyzer)
    (now1 now2 todayStart : Nat) (mid : Int) (s : PState) :
    ((s.analyses.find? (fun a => a.message_id == mid)).isSome = true →
      (process_message az now1 todayStart mid s).analyses = s.analyses ∧
      (process_message az now1 todayStart mid s).calls = s.calls) ∧
    ((process_message az now2 todayStart mid
        (process_message az now1 todayStart mid s)).analyses =
      (process_message az now1 todayStart mid s).analyses ∧
     (process_message az now2 todayStart mid
        (process_message az now1 todayStart mid s)).calls ≤ s.calls + 1) :=
  ⟨fun h => pm_cache_hit az now1 todayStart mid s h,
   pm_twice az now1 now2 todayStart mid s⟩

theorem classification_cache_idempotent_witness :
    ((sCachedW.analyses.find? (fun a => a.message_id == 5)).isSome = true) ∧
    (process_message azW 1 0 5 sCachedW).analyses = sCachedW.analyses ∧
    (process_message azW 1 0 5 sCachedW).calls = sCachedW.calls ∧
    (process_message azW 2 0 5
        (process_message azW 1 0 5 sCachedW)).analyses =
      (process_message azW 1 0 5 sCachedW).analyses ∧
    (process_message azW 2 0 5
        (process_message azW 1 0 5 sCachedW)).calls ≤ sCachedW.calls + 1 :=
  have h := classification_cache_idempotent azW 1 2 0 5 sCachedW
  ⟨by decide, (h.1 (by decide)).1, (h.1 (by decide)).2, h.2.1, h.2.2⟩

end TradeBot.Processor
